import Mathlib

/-!
A verification development for BladeAPI's calendar synchronization subsystem
(`src/main.py`, `src/models.py`).

JSON-like payloads, provider event records and MongoDB documents are modelled
as `Json` values and association-list dictionaries (`Dict`).  The provider's
paginated event-list endpoint is modelled by the list of responses it returns
to successive requests (each possibly an error, mirroring a raised exception
in `execute()`); the MongoDB `calendar_events` collection is modelled as a
list of documents, with `update_one(filter, set, upsert=True)` made explicit.
Wall-clock values (`datetime.utcnow()`) and the possibility of a thrown
database exception are passed in as explicit parameters.
-/

namespace BladeAPI

/-- JSON values, as carried by the FastAPI request body and the Google
Calendar API responses. -/
inductive Json where
  | null
  | bool (b : Bool)
  | num (n : Int)
  | str (s : String)
  | arr (elems : List Json)
  | obj (fields : List (String × Json))

mutual

/-- Structural equality on `Json`, mirroring Python `==` / MongoDB equality
on JSON values. -/
def Json.beq : Json → Json → Bool
  | .null, .null => true
  | .bool a, .bool b => a == b
  | .num a, .num b => a == b
  | .str a, .str b => a == b
  | .arr as, .arr bs => Json.beqArrList as bs
  | .obj as, .obj bs => Json.beqObjList as bs
  | _, _ => false

/-- Elementwise equality of JSON arrays. -/
def Json.beqArrList : List Json → List Json → Bool
  | [], [] => true
  | a :: as, b :: bs => Json.beq a b && Json.beqArrList as bs
  | _, _ => false

/-- Elementwise equality of JSON object field lists. -/
def Json.beqObjList : List (String × Json) → List (String × Json) → Bool
  | [], [] => true
  | (k, v) :: as, (l, w) :: bs => k == l && Json.beq v w && Json.beqObjList as bs
  | _, _ => false

end

mutual

theorem Json.beq_iff : ∀ a b : Json, Json.beq a b = true ↔ a = b
  | .null, .null => by simp [Json.beq]
  | .null, .bool _ => by simp [Json.beq]
  | .null, .num _ => by simp [Json.beq]
  | .null, .str _ => by simp [Json.beq]
  | .null, .arr _ => by simp [Json.beq]
  | .null, .obj _ => by simp [Json.beq]
  | .bool _, .null => by simp [Json.beq]
  | .bool _, .bool _ => by simp [Json.beq]
  | .bool _, .num _ => by simp [Json.beq]
  | .bool _, .str _ => by simp [Json.beq]
  | .bool _, .arr _ => by simp [Json.beq]
  | .bool _, .obj _ => by simp [Json.beq]
  | .num _, .null => by simp [Json.beq]
  | .num _, .bool _ => by simp [Json.beq]
  | .num _, .num _ => by simp [Json.beq]
  | .num _, .str _ => by simp [Json.beq]
  | .num _, .arr _ => by simp [Json.beq]
  | .num _, .obj _ => by simp [Json.beq]
  | .str _, .null => by simp [Json.beq]
  | .str _, .bool _ => by simp [Json.beq]
  | .str _, .num _ => by simp [Json.beq]
  | .str _, .str _ => by simp [Json.beq]
  | .str _, .arr _ => by simp [Json.beq]
  | .str _, .obj _ => by simp [Json.beq]
  | .arr _, .null => by simp [Json.beq]
  | .arr _, .bool _ => by simp [Json.beq]
  | .arr _, .num _ => by simp [Json.beq]
  | .arr _, .str _ => by simp [Json.beq]
  | .arr as, .arr bs => by
      simp only [Json.beq, Json.arr.injEq]
      exact Json.beqArrList_iff as bs
  | .arr _, .obj _ => by simp [Json.beq]
  | .obj _, .null => by simp [Json.beq]
  | .obj _, .bool _ => by simp [Json.beq]
  | .obj _, .num _ => by simp [Json.beq]
  | .obj _, .str _ => by simp [Json.beq]
  | .obj _, .arr _ => by simp [Json.beq]
  | .obj as, .obj bs => by
      simp only [Json.beq, Json.obj.injEq]
      exact Json.beqObjList_iff as bs

theorem Json.beqArrList_iff : ∀ as bs : List Json, Json.beqArrList as bs = true ↔ as = bs
  | [], [] => by simp [Json.beqArrList]
  | [], _ :: _ => by simp [Json.beqArrList]
  | _ :: _, [] => by simp [Json.beqArrList]
  | a :: as, b :: bs => by
      simp only [Json.beqArrList, Bool.and_eq_true, List.cons.injEq]
      rw [Json.beq_iff a b, Json.beqArrList_iff as bs]

theorem Json.beqObjList_iff :
    ∀ as bs : List (String × Json), Json.beqObjList as bs = true ↔ as = bs
  | [], [] => by simp [Json.beqObjList]
  | [], _ :: _ => by simp [Json.beqObjList]
  | _ :: _, [] => by simp [Json.beqObjList]
  | (k, v) :: as, (l, w) :: bs => by
      simp only [Json.beqObjList, Bool.and_eq_true, List.cons.injEq, Prod.mk.injEq,
        beq_iff_eq]
      rw [Json.beq_iff v w, Json.beqObjList_iff as bs]

end

instance : DecidableEq Json := fun a b =>
  if h : Json.beq a b = true then .isTrue ((Json.beq_iff a b).mp h)
  else .isFalse (fun he => h ((Json.beq_iff a b).mpr he))

/-- Python truthiness of a JSON value (`if not x` tests). -/
def Json.truthy : Json → Bool
  | .null => false
  | .bool b => b
  | .num n => n != 0
  | .str s => s != ""
  | .arr xs => !xs.isEmpty
  | .obj fs => !fs.isEmpty

/-- A Python dict / MongoDB document carrying JSON values, as an association
list.  Keys are unique in every dict the program builds. -/
abbrev Dict : Type := List (String × Json)

/-- Python `dict.get`: look up `k` in `d`, returning `None` (here
`Json.null`) when the key is absent. -/
def dget (d : Dict) (k : String) : Json :=
  match List.lookup k d with
  | some v => v
  | none => Json.null

/-- Python key-membership test on a dict (`k in d`). -/
def dhasKey (d : Dict) (k : String) : Bool :=
  List.any d (fun p => p.1 == k)

/-- Model of `_normalize_event` in `src/main.py`: convert an event resource
into a concise document for Mongo, keeping the original record under `raw`.
Absent fields come out as `None` via `event.get`. -/
def _normalize_event (event : Dict) : Dict :=
  [("id", dget event "id"),
   ("status", dget event "status"),
   ("summary", dget event "summary"),
   ("description", dget event "description"),
   ("location", dget event "location"),
   ("created", dget event "created"),
   ("updated", dget event "updated"),
   ("start", dget event "start"),
   ("end", dget event "end"),
   ("recurrence", dget event "recurrence"),
   ("attendees", dget event "attendees"),
   ("organizer", dget event "organizer"),
   ("raw", Json.obj event)]

/-- One page returned by the provider's `events().list(...).execute()` call:
the `items` array and the optional `nextPageToken`. -/
structure PageResp where
  items : List Dict
  nextPageToken : Option String
deriving DecidableEq

/-- Python truthiness of the `nextPageToken` cursor (`if not page_token`):
absent or empty string both end the pagination loop. -/
def tokenTruthy : Option String → Bool
  | none => false
  | some t => t != ""

/-- The pagination `while` loop of `src/main.py:_fetch_all_events_sync`,
run against the successive responses the provider returns.  A response that
raises (`.error`) aborts the whole listing; otherwise items accumulate in
order and the loop stops at the first response with no (truthy) cursor. -/
def fetchPagesLoop : List (Except String PageResp) → Except String (List Dict)
  | [] => .ok []
  | .error e :: _ => .error e
  | .ok r :: rest =>
      if tokenTruthy r.nextPageToken then
        match fetchPagesLoop rest with
        | .error e => .error e
        | .ok evs => .ok (r.items ++ evs)
      else
        .ok r.items

/-- Model of `_fetch_all_events_sync` in `src/main.py`: validate the auth payload (raising
`ValueError`, modelled as `.error`, on an unknown `auth_type` or a missing
required credential field), build the Google service, then page through the
event list.  The `calendar_id`/`time_min`/`time_max` arguments parameterize
the provider request; the provider's behaviour is the `pages` argument. -/
def _fetch_all_events_sync (auth_payload : Dict) (calendar_id time_min time_max : Json)
    (pages : List (Except String PageResp)) : Except String (List Dict) :=
  if dget auth_payload "auth_type" = Json.str "oauth" then
    if !dhasKey auth_payload "client_id" then .error "client_id required for oauth"
    else if !dhasKey auth_payload "client_secret" then .error "client_secret required for oauth"
    else if !dhasKey auth_payload "refresh_token" then .error "refresh_token required for oauth"
    else fetchPagesLoop pages
  else if dget auth_payload "auth_type" = Json.str "service_account" then
    if !dhasKey auth_payload "service_account_keyfile" then
      .error "service_account_keyfile required for service_account"
    else fetchPagesLoop pages
  else .error "unknown auth_type"

/-- MongoDB `$set` of a single field: overwrite the binding of `k` if the
document has one, otherwise add the field at the end. -/
def dset (d : Dict) (k : String) (v : Json) : Dict :=
  if dhasKey d k then d.map (fun p => if p.1 = k then (k, v) else p) else d ++ [(k, v)]

/-- MongoDB `$set` of a whole update document, field by field. -/
def applySet (d upd : Dict) : Dict :=
  upd.foldl (fun acc p => dset acc p.1 p.2) d

/-- Model of `coll.update_one` with an `id` filter, a `$set` update and
`upsert=True` on the `calendar_events` collection: the first stored document whose `id` field
equals `idv` receives the `$set`; if none matches, `doc` is inserted.
Returns (new collection, upserted flag, matched count). -/
def update_one_upsert : List Dict → Json → Dict → List Dict × Bool × Nat
  | [], _, doc => ([doc], true, 0)
  | d :: rest, idv, doc =>
      if dget d "id" = idv then (applySet d doc :: rest, false, 1)
      else
        let r := update_one_upsert rest idv doc
        (d :: r.1, r.2)

/-- The mutable state of the upsert loop in `src/main.py:sync_calendar`:
the `calendar_events` collection plus the `inserted`/`updated`/`errors`
accumulators. -/
structure SyncState where
  store : List Dict
  inserted : Nat
  updated : Nat
  errors : List Dict
deriving DecidableEq

/-- The `for ev in events` upsert loop of `src/main.py:sync_calendar`.
`dbExc k` is `some msg` when the `k`-th event's `update_one` raises an
exception with message `msg` (the write then has no effect on the
collection), `none` when it succeeds. -/
def sync_loop (dbExc : Nat → Option String) : List Dict → Nat → SyncState → SyncState
  | [], _, st => st
  | ev :: rest, k, st =>
      let doc := _normalize_event ev
      let st' :=
        if !(dget doc "id").truthy then
          { st with errors := st.errors ++ [[("event_no_id", Json.obj ev)]] }
        else
          match dbExc k with
          | some msg =>
              { st with errors :=
                  st.errors ++ [[("id", dget doc "id"), ("error", Json.str msg)]] }
          | none =>
              let r := update_one_upsert st.store (dget doc "id") doc
              if r.2.1 then { st with store := r.1, inserted := st.inserted + 1 }
              else if r.2.2 > 0 then { st with store := r.1, updated := st.updated + 1 }
              else { st with store := r.1 }
      sync_loop dbExc rest (k + 1) st'

/-- The JSON body returned by `src/main.py:sync_calendar` on success. -/
structure SyncResp where
  status : String
  calendarId : Json
  total_fetched : Nat
  inserted : Nat
  updated : Nat
  errors : List Dict
deriving DecidableEq

/-- The route of the sync trigger endpoint, from `@app.post("/sync-calendar")`. -/
def sync_calendar_route : String := "/sync-calendar"

/-- The HTTP method of the sync trigger endpoint. -/
def sync_calendar_method : String := "POST"

/-- Python `payload.get` of `calendarId` with default `"primary"`. -/
def calendarIdOf (payload : Dict) : Json :=
  match List.lookup "calendarId" payload with
  | some v => v
  | none => Json.str "primary"

/-- Python `payload.get` of `timeMin` with its epoch default. -/
def timeMinOf (payload : Dict) : Json :=
  match List.lookup "timeMin" payload with
  | some v => v
  | none => Json.str "1970-01-01T00:00:00Z"

/-- Python `payload.get` of `timeMax`, replaced by the wall-clock default when falsy. -/
def timeMaxOf (payload : Dict) (defaultTimeMax : String) : Json :=
  let tm := dget payload "timeMax"
  if tm.truthy then tm else Json.str defaultTimeMax

/-- Model of `sync_calendar` in `src/main.py` (`POST /sync-calendar`): read
`calendarId`/`timeMin`/`timeMax` from the payload with their defaults, fetch
all events (any exception becomes `HTTPException(400, "Google API error: ..")`
before anything touches the collection), then run the upsert loop and report
the outcome.  `defaultTimeMax` stands for the wall-clock expression
`(utcnow() + 3650 days).isoformat() + "Z"`; `pages`, `dbExc` and `store`
stand for the provider and the `calendar_events` collection.  Returns the
endpoint's response together with the final collection. -/
def sync_calendar (payload : Dict) (defaultTimeMax : String)
    (pages : List (Except String PageResp)) (dbExc : Nat → Option String)
    (store : List Dict) : Except (Nat × String) SyncResp × List Dict :=
  let calendar_id := calendarIdOf payload
  let time_min := timeMinOf payload
  let time_max := timeMaxOf payload defaultTimeMax
  match _fetch_all_events_sync payload calendar_id time_min time_max pages with
  | .error e => (.error (400, "Google API error: " ++ e), store)
  | .ok events =>
      let st := sync_loop dbExc events 0 ⟨store, 0, 0, []⟩
      (.ok { status := "ok", calendarId := calendar_id,
             total_fetched := events.length, inserted := st.inserted,
             updated := st.updated, errors := st.errors },
       st.store)

/-- A busy block as described by the spec's data model (§3). -/
structure BusyBlock where
  owner : String
  source : String
  startTime : String
  endTime : String
  date : String
deriving DecidableEq

/-- Does a stored busy block belong to the `(ownerKey, source)` pair? -/
def blockMatches (ownerKey source : String) (b : BusyBlock) : Bool :=
  b.owner == ownerKey && b.source == source

/-- Modelled from the spec: the Reconciler's `replace(ownerKey, source,
newBlocks)` (§4.6) is not under `src/` (only the full-event upsert path is);
it deletes every existing BusyBlock matching `(ownerKey, source)`, then
inserts `newBlocks`. -/
def replace (ownerKey source : String) (newBlocks : List BusyBlock)
    (store : List BusyBlock) : List BusyBlock :=
  store.filter (fun b => !blockMatches ownerKey source b) ++ newBlocks

/-- Modelled from the spec: the free/busy sync mode of the Event Normalizer
(§4.4) is not under `src/`; it maps a fetched `\x7bstart, end\x7d` interval
into a BusyBlock, deriving `date` as the first 10 characters of the
ISO-8601 start timestamp. -/
def normalize_free_busy (owner startTime endTime : String) : BusyBlock :=
  { owner := owner, source := "externalSync", startTime := startTime,
    endTime := endTime, date := startTime.take 10 }

/-- Outcome of one orchestrated sync request (spec §4.5). -/
inductive SyncOutcome where
  | connectUrl (url : String)
  | synced (total : Nat)
  | syncFailed (msg : String)
deriving DecidableEq

/-- Observable side effects of one orchestrated sync request: calls to the
provider's network API and writes to storage. -/
structure SyncEffects where
  networkCalls : Nat
  storageWrites : Nat
deriving DecidableEq

/-- The fixed part of the provider authorization URL, ending in the `state`
query parameter (spec §4.2, §6: `response_type=code`, `access_type=offline`,
`prompt=consent`, `include_granted_scopes=true`, `state=<user>`). -/
def authUrlBase : String :=
  "https://accounts.google.com/o/oauth2/v2/auth?response_type=code&access_type=offline&prompt=consent&include_granted_scopes=true&scope=https://www.googleapis.com/auth/calendar.readonly&state="

/-- Modelled from the spec: the Token Exchange Client's
`buildAuthorizationUrl` (§4.2) is not under `src/`; the URL carries
`state=<userId>`. -/
def buildAuthorizationUrl (userId : String) : String :=
  authUrlBase ++ userId

/-- Modelled from the spec: the Sync Orchestrator (§4.5) with its Credential
Store is not under `src/` (only the request model `GoogleSyncRequest` remains
in `src/models.py`).  With no credential on file it emits a connect URL and
takes no further action; with a credential it fetches, normalizes and
reconciles. -/
def sync_for_user (cred : Option String) (userId : String)
    (pages : List (Except String PageResp)) : SyncOutcome × SyncEffects :=
  match cred with
  | none => (.connectUrl (buildAuthorizationUrl userId), ⟨0, 0⟩)
  | some _ =>
      match fetchPagesLoop pages with
      | .error e => (.syncFailed e, ⟨1, 0⟩)
      | .ok evs => (.synced evs.length, ⟨1, evs.length⟩)

/-- The event-record keys copied by the normalizer. -/
def normalizedKeys : List String :=
  ["id", "status", "summary", "description", "location", "created", "updated",
   "start", "end", "recurrence", "attendees", "organizer"]

/-- A provider run is well formed when every response before the last carries
a truthy `nextPageToken` and the last one does not: the pagination loop then
visits exactly these responses. -/
def wellFormedRunB : List PageResp → Bool
  | [] => false
  | [r] => !tokenTruthy r.nextPageToken
  | r :: rest => tokenTruthy r.nextPageToken && wellFormedRunB rest

/-- Does the auth payload pass the validation at the top of
`_fetch_all_events_sync`? -/
def authValid (p : Dict) : Bool :=
  (decide (dget p "auth_type" = Json.str "oauth") && dhasKey p "client_id" &&
    dhasKey p "client_secret" && dhasKey p "refresh_token") ||
  (decide (dget p "auth_type" = Json.str "service_account") &&
    dhasKey p "service_account_keyfile")

/-- A concrete oauth payload that passes validation, for witnesses. -/
def oauthPayload : Dict :=
  [("auth_type", Json.str "oauth"), ("client_id", Json.str "c"),
   ("client_secret", Json.str "s"), ("refresh_token", Json.str "r")]

/-- First page of a concrete three-page provider run with two items each. -/
def page1 : PageResp := ⟨[[("id", Json.str "e1")], [("id", Json.str "e2")]], some "t1"⟩

/-- Second page of the concrete three-page provider run. -/
def page2 : PageResp := ⟨[[("id", Json.str "e3")], [("id", Json.str "e4")]], some "t2"⟩

/-- Last page of the concrete three-page provider run: no next-page token. -/
def page3 : PageResp := ⟨[[("id", Json.str "e5")], [("id", Json.str "e6")]], none⟩

theorem lookup_norm_keys (event : Dict) :
    ∀ k ∈ normalizedKeys,
      List.lookup k (_normalize_event event) = some (dget event k) := by
  intro k hk
  fin_cases hk <;> rfl

/-- C5: the event normalizer is a pure function from a provider event record
to a normalized document: it copies each of the listed fields via
`event.get`, yields null for any absent optional field, and stores the
unmodified input record under the `raw` key. -/
theorem normalize_event_copies_fields (event : Dict) :
    (∀ k ∈ normalizedKeys,
        List.lookup k (_normalize_event event) = some (dget event k)) ∧
    (∀ k ∈ normalizedKeys, List.lookup k event = none →
        List.lookup k (_normalize_event event) = some Json.null) ∧
    List.lookup "raw" (_normalize_event event) = some (Json.obj event) := by
  refine ⟨lookup_norm_keys event, ?_, rfl⟩
  intro k hk h
  have hd : dget event k = Json.null := by unfold dget; rw [h]
  rw [lookup_norm_keys event k hk, hd]

/-- Witness for C5 at a concrete one-field event record. -/
theorem normalize_event_copies_fields_witness :
    ("summary" ∈ normalizedKeys ∧
      List.lookup "summary" (_normalize_event [("id", Json.str "e1")]) =
        some (dget [("id", Json.str "e1")] "summary")) ∧
    (List.lookup "location" ([("id", Json.str "e1")] : Dict) = none ∧
      List.lookup "location" (_normalize_event [("id", Json.str "e1")]) =
        some Json.null) :=
  ⟨⟨by decide, (normalize_event_copies_fields [("id", Json.str "e1")]).1 "summary" (by decide)⟩,
   ⟨by decide, (normalize_event_copies_fields [("id", Json.str "e1")]).2.1 "location"
      (by decide) (by decide)⟩⟩

/-- C8: in free/busy mode the derived `date` field equals the first 10
characters of the ISO-8601 start timestamp; in particular for start
`2024-01-01T10:00:00Z` it equals `2024-01-01`. -/
theorem free_busy_date_is_take10 :
    (∀ owner startTime endTime,
        (normalize_free_busy owner startTime endTime).date = startTime.take 10) ∧
    (normalize_free_busy "user" "2024-01-01T10:00:00Z" "2024-01-01T11:00:00Z").date =
      "2024-01-01" :=
  ⟨fun _ _ _ => by simp [normalize_free_busy], by decide⟩

/-- C1: `replace` first deletes every stored busy block matching the
`(ownerKey, source)` pair and then inserts the new blocks; with an empty
new-block list no block remains for that pair and the blocks of every other
pair are exactly the ones stored before. -/
theorem replace_deletes_then_inserts (ownerKey source : String) (store : List BusyBlock) :
    (∀ newBlocks, replace ownerKey source newBlocks store =
        store.filter (fun b => !blockMatches ownerKey source b) ++ newBlocks) ∧
    (replace ownerKey source [] store).filter (fun b => blockMatches ownerKey source b) = [] ∧
    replace ownerKey source [] store =
      store.filter (fun b => !blockMatches ownerKey source b) := by
  refine ⟨fun _ => rfl, ?_, by simp [replace]⟩
  simp [replace, List.filter_filter]

/-- C3: with no stored credential, a sync request returns a connect URL
containing `state=<userId>` and performs no network calendar call and no
storage write. -/
theorem sync_not_connected (userId : String) (pages : List (Except String PageResp)) :
    sync_for_user none userId pages =
      (SyncOutcome.connectUrl (buildAuthorizationUrl userId), ⟨0, 0⟩) ∧
    ∃ pre, buildAuthorizationUrl userId = pre ++ ("state=" ++ userId) := by
  refine ⟨rfl, "https://accounts.google.com/o/oauth2/v2/auth?response_type=code&access_type=offline&prompt=consent&include_granted_scopes=true&scope=https://www.googleapis.com/auth/calendar.readonly&", ?_⟩
  rw [← String.append_assoc]
  exact rfl

/-- C7 counterexample: the sync trigger's route in the code is
`/sync-calendar`, not `/calendar/sync`. -/
theorem sync_route_not_calendar_sync : sync_calendar_route ≠ "/calendar/sync" := by
  decide

/-- C7 amended: the sync trigger is `POST /sync-calendar`, taking the
provider auth payload in the body; every error response carries HTTP
status 400, and every success response has `status = "ok"` and reports the
calendar id (alongside the `total_fetched`, `inserted`, `updated` and
`errors` fields of `SyncResp`). -/
theorem sync_calendar_endpoint_contract (payload : Dict) (dtm : String)
    (pages : List (Except String PageResp)) (dbExc : Nat → Option String)
    (store : List Dict) :
    sync_calendar_method = "POST" ∧ sync_calendar_route = "/sync-calendar" ∧
    (∀ err, (sync_calendar payload dtm pages dbExc store).1 = .error err →
        err.1 = 400) ∧
    (∀ resp, (sync_calendar payload dtm pages dbExc store).1 = .ok resp →
        resp.status = "ok" ∧ resp.calendarId = calendarIdOf payload) := by
  refine ⟨rfl, rfl, ?_, ?_⟩
  · intro err herr
    simp only [sync_calendar] at herr
    split at herr <;> simp_all
    subst herr
    rfl
  · intro resp hresp
    simp only [sync_calendar] at hresp
    split at hresp <;> simp_all
    subst hresp
    exact ⟨rfl, rfl⟩

/-- Witness for the amended C7 at a concrete successful request. -/
theorem sync_calendar_endpoint_contract_witness :
    ((sync_calendar oauthPayload "T" [Except.ok ⟨[], none⟩] (fun _ => none) []).1 =
       Except.ok ⟨"ok", Json.str "primary", 0, 0, 0, []⟩) ∧
    (("ok" : String) = "ok" ∧ Json.str "primary" = calendarIdOf oauthPayload) :=
  ⟨rfl,
   (sync_calendar_endpoint_contract oauthPayload "T" [Except.ok ⟨[], none⟩]
      (fun _ => none) []).2.2.2 ⟨"ok", Json.str "primary", 0, 0, 0, []⟩ rfl⟩

/-- C2: for a provider returning pages linked by a page-token cursor, the
event-listing loop requests successive pages until a response carries no
truthy next-page token, and returns the concatenation of all pages' items in
original order — for any number of pages. -/
theorem fetch_pages_concat (rs : List PageResp) (h : wellFormedRunB rs = true) :
    fetchPagesLoop (rs.map Except.ok) = .ok ((rs.map PageResp.items).flatten) := by
  induction rs with
  | nil => simp [wellFormedRunB] at h
  | cons r rest ih =>
      cases rest with
      | nil =>
          simp only [wellFormedRunB, Bool.not_eq_true'] at h
          simp [fetchPagesLoop, h]
      | cons r2 rest2 =>
          simp only [wellFormedRunB, Bool.and_eq_true] at h
          obtain ⟨h1, h2⟩ := h
          have ih2 := ih h2
          rw [List.map_cons, fetchPagesLoop, ih2, h1]
          simp

/-- Witness for C2: a concrete provider answering 3 pages of 2 items each
yields exactly 6 events, in original order. -/
theorem fetch_pages_concat_witness :
    wellFormedRunB [page1, page2, page3] = true ∧
    fetchPagesLoop ([page1, page2, page3].map Except.ok) =
      .ok (([page1, page2, page3].map PageResp.items).flatten) ∧
    (([page1, page2, page3].map PageResp.items).flatten).length = 6 :=
  ⟨by decide, fetch_pages_concat [page1, page2, page3] (by decide), by decide⟩

theorem fetch_valid_eq_loop (p : Dict) (c t1 t2 : Json)
    (pages : List (Except String PageResp)) (h : authValid p = true) :
    _fetch_all_events_sync p c t1 t2 pages = fetchPagesLoop pages := by
  simp only [authValid, Bool.or_eq_true, Bool.and_eq_true, decide_eq_true_eq] at h
  rcases h with ⟨⟨⟨ha, hb⟩, hc⟩, hd⟩ | ⟨ha, hb⟩
  · simp [_fetch_all_events_sync, ha, hb, hc, hd]
  · simp [_fetch_all_events_sync, ha, hb]

theorem sync_error_no_write (payload : Dict) (dtm : String)
    (pages : List (Except String PageResp)) (dbExc : Nat → Option String)
    (store : List Dict) (e : String)
    (h : _fetch_all_events_sync payload (calendarIdOf payload) (timeMinOf payload)
        (timeMaxOf payload dtm) pages = .error e) :
    sync_calendar payload dtm pages dbExc store =
      (.error (400, "Google API error: " ++ e), store) := by
  simp only [sync_calendar]
  rw [h]

/-- C6: if any single page fetch fails, the whole listing aborts with the
provider error — no partial list of events is returned — and the sync
endpoint then answers HTTP 400 with the stored collection unchanged. -/
theorem page_failure_aborts_listing (okPages : List PageResp) (e : String)
    (rest : List (Except String PageResp))
    (htok : ∀ r ∈ okPages, tokenTruthy r.nextPageToken = true) :
    fetchPagesLoop (okPages.map Except.ok ++ Except.error e :: rest) = .error e ∧
    ∀ payload dtm dbExc store, authValid payload = true →
      sync_calendar payload dtm (okPages.map Except.ok ++ Except.error e :: rest)
          dbExc store =
        (.error (400, "Google API error: " ++ e), store) := by
  have hloop : fetchPagesLoop (okPages.map Except.ok ++ Except.error e :: rest) =
      .error e := by
    induction okPages with
    | nil => rfl
    | cons r rs ih =>
        have h1 := htok r (by simp)
        have ih2 := ih (fun x hx => htok x (by simp [hx]))
        simp [fetchPagesLoop, h1, ih2]
  refine ⟨hloop, ?_⟩
  intro payload dtm dbExc store hv
  exact sync_error_no_write payload dtm _ dbExc store e
    (by rw [fetch_valid_eq_loop _ _ _ _ _ hv, hloop])

/-- Witness for C6: one good page with a cursor followed by a failing fetch
aborts the listing and leaves the store unchanged. -/
theorem page_failure_aborts_listing_witness :
    fetchPagesLoop ([(⟨[[("id", Json.str "e1")]], some "t"⟩ : PageResp)].map Except.ok ++
        Except.error "boom" :: []) = .error "boom" ∧
    sync_calendar oauthPayload "T"
        ([(⟨[[("id", Json.str "e1")]], some "t"⟩ : PageResp)].map Except.ok ++
          Except.error "boom" :: []) (fun _ => none) [] =
      (.error (400, "Google API error: " ++ "boom"), []) :=
  have h := page_failure_aborts_listing [⟨[[("id", Json.str "e1")]], some "t"⟩]
    "boom" [] (by decide)
  ⟨h.1, h.2 oauthPayload "T" (fun _ => none) [] (by decide)⟩

/-- C10: an invalid auth payload (unknown `auth_type`, or a required
credential field missing for the oauth or service_account mode) or a failing
provider fetch makes the sync endpoint fail with HTTP 400 before any write:
the stored calendar-events collection is returned unchanged. -/
theorem invalid_auth_or_fetch_error_400 (payload : Dict) (dtm : String)
    (pages : List (Except String PageResp)) (dbExc : Nat → Option String)
    (store : List Dict) :
    (∀ e, _fetch_all_events_sync payload (calendarIdOf payload) (timeMinOf payload)
        (timeMaxOf payload dtm) pages = .error e →
      sync_calendar payload dtm pages dbExc store =
        (.error (400, "Google API error: " ++ e), store)) ∧
    (authValid payload = false →
      ∃ e, _fetch_all_events_sync payload (calendarIdOf payload) (timeMinOf payload)
          (timeMaxOf payload dtm) pages = .error e ∧
        sync_calendar payload dtm pages dbExc store =
          (.error (400, "Google API error: " ++ e), store)) := by
  constructor
  · intro e he
    exact sync_error_no_write payload dtm pages dbExc store e he
  · intro hv
    by_cases h1 : dget payload "auth_type" = Json.str "oauth"
    · by_cases hc1 : dhasKey payload "client_id"
      · by_cases hc2 : dhasKey payload "client_secret"
        · by_cases hc3 : dhasKey payload "refresh_token"
          · exfalso
            simp [authValid, h1, hc1, hc2, hc3] at hv
          · have hfe : _fetch_all_events_sync payload (calendarIdOf payload)
                (timeMinOf payload) (timeMaxOf payload dtm) pages =
                .error "refresh_token required for oauth" := by
              simp [_fetch_all_events_sync, h1, hc1, hc2, hc3]
            exact ⟨_, hfe, sync_error_no_write payload dtm pages dbExc store _ hfe⟩
        · have hfe : _fetch_all_events_sync payload (calendarIdOf payload)
              (timeMinOf payload) (timeMaxOf payload dtm) pages =
              .error "client_secret required for oauth" := by
            simp [_fetch_all_events_sync, h1, hc1, hc2]
          exact ⟨_, hfe, sync_error_no_write payload dtm pages dbExc store _ hfe⟩
      · have hfe : _fetch_all_events_sync payload (calendarIdOf payload)
            (timeMinOf payload) (timeMaxOf payload dtm) pages =
            .error "client_id required for oauth" := by
          simp [_fetch_all_events_sync, h1, hc1]
        exact ⟨_, hfe, sync_error_no_write payload dtm pages dbExc store _ hfe⟩
    · by_cases h2 : dget payload "auth_type" = Json.str "service_account"
      · by_cases hk : dhasKey payload "service_account_keyfile"
        · exfalso
          simp [authValid, h2, hk] at hv
        · have hfe : _fetch_all_events_sync payload (calendarIdOf payload)
              (timeMinOf payload) (timeMaxOf payload dtm) pages =
              .error "service_account_keyfile required for service_account" := by
            simp [_fetch_all_events_sync, h1, h2, hk]
          exact ⟨_, hfe, sync_error_no_write payload dtm pages dbExc store _ hfe⟩
      · have hfe : _fetch_all_events_sync payload (calendarIdOf payload)
            (timeMinOf payload) (timeMaxOf payload dtm) pages =
            .error "unknown auth_type" := by
          simp [_fetch_all_events_sync, h1, h2]
        exact ⟨_, hfe, sync_error_no_write payload dtm pages dbExc store _ hfe⟩

/-- Witness for C10: an empty payload has an unknown auth type, so the sync
endpoint answers HTTP 400 and the store is returned unchanged. -/
theorem invalid_auth_or_fetch_error_400_witness :
    _fetch_all_events_sync [] (calendarIdOf []) (timeMinOf []) (timeMaxOf [] "T") [] =
      .error "unknown auth_type" ∧
    sync_calendar [] "T" [] (fun _ => none) [] =
      (.error (400, "Google API error: " ++ "unknown auth_type"), []) :=
  ⟨rfl, (invalid_auth_or_fetch_error_400 [] "T" [] (fun _ => none) []).1
    "unknown auth_type" rfl⟩

theorem upsert_flag_or_matched (S : List Dict) (idv : Json) (doc : Dict) :
    (update_one_upsert S idv doc).2.1 = true ∨
      (update_one_upsert S idv doc).2.2 = 1 := by
  induction S with
  | nil => left; rfl
  | cons d rest ih =>
      by_cases h : dget d "id" = idv
      · right
        simp [update_one_upsert, h]
      · simpa [update_one_upsert, h] using ih

theorem sync_loop_accounting (dbExc : Nat → Option String) (events : List Dict) :
    ∀ (k : Nat) (st : SyncState),
      (sync_loop dbExc events k st).inserted + (sync_loop dbExc events k st).updated +
          (sync_loop dbExc events k st).errors.length =
        st.inserted + st.updated + st.errors.length + events.length := by
  induction events with
  | nil => intro k st; rfl
  | cons ev rest ih =>
      intro k st
      rw [sync_loop, ih]
      by_cases h1 : (dget (_normalize_event ev) "id").truthy
      · cases hdb : dbExc k with
        | some msg =>
            simp [h1, hdb]
            omega
        | none =>
            rcases upsert_flag_or_matched st.store (dget (_normalize_event ev) "id")
                (_normalize_event ev) with hf | hm
            · simp [h1, hdb, hf]
              omega
            · by_cases hf2 : (update_one_upsert st.store (dget (_normalize_event ev) "id")
                  (_normalize_event ev)).2.1
              · simp [h1, hdb, hf2]
                omega
              · simp [h1, hdb, hf2, hm]
                omega
      · simp [h1]
        omega

/-- C9: every fetched event is accounted for exactly once in the response:
an event with no truthy id lands in `errors`, a successful upsert increments
exactly one of `inserted` or `updated`, and a failed write lands in
`errors` — so `total_fetched` equals `inserted + updated + errors.length`. -/
theorem sync_accounting (payload : Dict) (dtm : String)
    (pages : List (Except String PageResp)) (dbExc : Nat → Option String)
    (store : List Dict) (resp : SyncResp) (store2 : List Dict)
    (h : sync_calendar payload dtm pages dbExc store = (.ok resp, store2)) :
    resp.total_fetched = resp.inserted + resp.updated + resp.errors.length := by
  simp only [sync_calendar] at h
  split at h
  · exfalso
    simp at h
  · rename_i evs heq
    simp only [Prod.mk.injEq, Except.ok.injEq] at h
    obtain ⟨h1, h2⟩ := h
    subst h1
    have hacc := sync_loop_accounting dbExc evs 0 ⟨store, 0, 0, []⟩
    simp at hacc ⊢
    omega

/-- Witness for C9 at a concrete successful one-event sync. -/
theorem sync_accounting_witness :
    sync_calendar oauthPayload "T" [Except.ok ⟨[[("id", Json.str "a")]], none⟩]
        (fun _ => none) [] =
      (Except.ok ⟨"ok", Json.str "primary", 1, 1, 0, []⟩,
        [_normalize_event [("id", Json.str "a")]]) ∧
    (⟨"ok", Json.str "primary", 1, 1, 0, []⟩ : SyncResp).total_fetched =
      (⟨"ok", Json.str "primary", 1, 1, 0, []⟩ : SyncResp).inserted +
        (⟨"ok", Json.str "primary", 1, 1, 0, []⟩ : SyncResp).updated +
        (⟨"ok", Json.str "primary", 1, 1, 0, []⟩ : SyncResp).errors.length :=
  ⟨rfl, sync_accounting oauthPayload "T" [Except.ok ⟨[[("id", Json.str "a")]], none⟩]
    (fun _ => none) [] _ _ rfl⟩

theorem dget_norm_id (ev : Dict) :
    dget (_normalize_event ev) "id" = dget ev "id" := rfl

theorem upsert_fresh (S : List Dict) (idv : Json) (doc : Dict)
    (h : ∀ d ∈ S, dget d "id" ≠ idv) :
    update_one_upsert S idv doc = (S ++ [doc], true, 0) := by
  induction S with
  | nil => rfl
  | cons d rest ih =>
      have hd := h d (by simp)
      simp only [update_one_upsert, if_neg hd, ih (fun x hx => h x (by simp [hx])),
        List.cons_append]

theorem upsert_found (A : List Dict) (B : List Dict) (idv : Json) (doc d : Dict)
    (hA : ∀ x ∈ A, dget x "id" ≠ idv) (hd : dget d "id" = idv) :
    update_one_upsert (A ++ d :: B) idv doc = (A ++ applySet d doc :: B, false, 1) := by
  induction A with
  | nil => simp [update_one_upsert, hd]
  | cons a A2 ih =>
      have ha := hA a (by simp)
      have ih2 := ih (fun x hx => hA x (by simp [hx]))
      simp [update_one_upsert, ha, ih2]

theorem applySet_norm_self (ev : Dict) :
    applySet (_normalize_event ev) (_normalize_event ev) = _normalize_event ev := by
  simp [applySet, _normalize_event, dset, dhasKey, List.foldl]

theorem sync_loop_fresh (events : List Dict) :
    ∀ (S errs : List Dict) (k i u : Nat),
      (∀ ev ∈ events, (dget ev "id").truthy = true) →
      (∀ ev ∈ events, ∀ d ∈ S, dget d "id" ≠ dget ev "id") →
      events.Pairwise (fun a b => dget a "id" ≠ dget b "id") →
      (sync_loop (fun _ => none) events k ⟨S, i, u, errs⟩).store =
        S ++ events.map _normalize_event := by
  induction events with
  | nil =>
      intro S errs k i u _ _ _
      simp [sync_loop]
  | cons ev rest ih =>
      intro S errs k i u hty hfresh hnd
      have h1 : (dget ev "id").truthy = true := hty ev (by simp)
      have hup := upsert_fresh S (dget ev "id") (_normalize_event ev)
        (fun d hd => hfresh ev (by simp) d hd)
      rw [sync_loop]
      simp only [dget_norm_id, hup, h1, Bool.not_true, Bool.false_eq_true, if_false]
      have hpair := List.pairwise_cons.mp hnd
      have ihapp := ih (S ++ [_normalize_event ev]) errs (k + 1) (i + 1) u
        (fun x hx => hty x (by simp [hx]))
        (fun x hx d hd => by
          rcases List.mem_append.mp hd with hdS | hdoc
          · exact hfresh x (by simp [hx]) d hdS
          · have : d = _normalize_event ev := by simpa using hdoc
            rw [this, dget_norm_id]
            exact hpair.1 x hx)
        hpair.2
      simp only [if_true, gt_iff_lt, lt_self_iff_false]
      rw [ihapp]
      simp

theorem sync_loop_stable (events : List Dict) :
    ∀ (A errs : List Dict) (k i u : Nat),
      (∀ ev ∈ events, (dget ev "id").truthy = true) →
      (∀ ev ∈ events, ∀ d ∈ A, dget d "id" ≠ dget ev "id") →
      events.Pairwise (fun a b => dget a "id" ≠ dget b "id") →
      (sync_loop (fun _ => none) events k
          ⟨A ++ events.map _normalize_event, i, u, errs⟩).store =
        A ++ events.map _normalize_event := by
  induction events with
  | nil =>
      intro A errs k i u _ _ _
      simp [sync_loop]
  | cons ev rest ih =>
      intro A errs k i u hty hfresh hnd
      have h1 : (dget ev "id").truthy = true := hty ev (by simp)
      have hpair := List.pairwise_cons.mp hnd
      have hAfresh : ∀ x ∈ A, dget x "id" ≠ dget ev "id" :=
        fun x hx => hfresh ev (by simp) x hx
      have hup := upsert_found A (rest.map _normalize_event) (dget ev "id")
        (_normalize_event ev) (_normalize_event ev) hAfresh (dget_norm_id ev)
      rw [sync_loop]
      simp only [List.map_cons, dget_norm_id, hup, applySet_norm_self, h1,
        Bool.not_true, Bool.false_eq_true, if_false]
      have ihapp := ih (A ++ [_normalize_event ev]) errs (k + 1) i (u + 1)
        (fun x hx => hty x (by simp [hx]))
        (fun x hx d hd => by
          rcases List.mem_append.mp hd with hdA | hdoc
          · exact hfresh x (by simp [hx]) d hdA
          · have : d = _normalize_event ev := by simpa using hdoc
            rw [this, dget_norm_id]
            exact hpair.1 x hx)
        hpair.2
      simp only [Nat.lt_irrefl, gt_iff_lt, Nat.zero_lt_one, if_true]
      rw [show (A ++ _normalize_event ev :: rest.map _normalize_event : List Dict) =
          (A ++ [_normalize_event ev]) ++ rest.map _normalize_event by simp]
      rw [ihapp]

/-- C4: syncing is idempotent with respect to storage: with all fetched
events carrying distinct truthy ids and no database failures, one upsert
run over an empty collection stores exactly the normalized documents, a
second identical run leaves the collection unchanged, and the stored ids
are pairwise distinct (one document per provider event id); likewise
calling the reconciler's `replace` twice with the same blocks of the pair
leaves the stored set as after one call. -/
theorem sync_upsert_idempotent (events : List Dict)
    (hty : ∀ ev ∈ events, (dget ev "id").truthy = true)
    (hnd : events.Pairwise (fun a b => dget a "id" ≠ dget b "id")) :
    (sync_loop (fun _ => none) events 0 ⟨[], 0, 0, []⟩).store =
        events.map _normalize_event ∧
    (sync_loop (fun _ => none) events 0
        ⟨(sync_loop (fun _ => none) events 0 ⟨[], 0, 0, []⟩).store, 0, 0, []⟩).store =
      events.map _normalize_event ∧
    ((events.map _normalize_event).map (fun d => dget d "id")).Pairwise (· ≠ ·) ∧
    (∀ (o s : String) (X st2 : List BusyBlock),
        (∀ b ∈ X, blockMatches o s b = true) →
        replace o s X (replace o s X st2) = replace o s X st2) := by
  have h1 : (sync_loop (fun _ => none) events 0 ⟨[], 0, 0, []⟩).store =
      events.map _normalize_event := by
    have := sync_loop_fresh events [] [] 0 0 0 hty (by simp) hnd
    simpa using this
  refine ⟨h1, ?_, ?_, ?_⟩
  · rw [h1]
    have := sync_loop_stable events [] [] 0 0 0 hty (by simp) hnd
    simpa using this
  · rw [List.map_map]
    exact List.pairwise_map.mpr hnd
  · intro o s X st2 hX
    simp [replace, List.filter_append, List.filter_filter, hX]
    exact hX

/-- Witness for C4 at two concrete events with distinct ids. -/
theorem sync_upsert_idempotent_witness :
    (∀ ev ∈ ([[("id", Json.str "a")], [("id", Json.str "b")]] : List Dict),
        (dget ev "id").truthy = true) ∧
    (sync_loop (fun _ => none) [[("id", Json.str "a")], [("id", Json.str "b")]] 0
        ⟨[], 0, 0, []⟩).store =
      ([[("id", Json.str "a")], [("id", Json.str "b")]] : List Dict).map _normalize_event :=
  have h := sync_upsert_idempotent [[("id", Json.str "a")], [("id", Json.str "b")]]
    (by decide) (by decide)
  ⟨by decide, h.1⟩

end BladeAPI
